import Mathlib

/-!
Verification of the pane/navigation state machine and operation-orchestration
layer of the dual-pane terminal file browser (source files mc.py and
mc_old.py).  The Python source is shallowly embedded: pure fragments become
Lean functions, the mutable pane fields become explicit records, filesystem
access becomes an abstract map from paths to nodes, and the curses side
effects (drawing, key reading) are dropped or recorded as explicit outputs
(reported-error flags, terminal-action traces, filesystem-call lists).
-/

namespace MC

/-- A path is the list of name components below the filesystem root;
`[]` is the root itself (`os.path.dirname` of the root is the root,
which `List.dropLast` mirrors on `[]`). -/
abbrev Path := List String

/-- The raw contents of a readable directory, before sorting: the names of
its subdirectories and of its regular files (what `os.scandir` yields
together with `entry.is_dir()`). -/
structure DirContents where
  dirs : List String
  files : List String
deriving DecidableEq

/-- A filesystem node: a directory (whose contents are `none` when the
directory exists but cannot be read, the `PermissionError` case) or a
regular file. -/
inductive Node where
  | dir (contents : Option DirContents)
  | file
deriving DecidableEq

/-- Abstract filesystem: `none` means the path does not exist
(the `FileNotFoundError` case). -/
abbrev Fs := Path → Option Node

/-- `os.path.exists`. -/
def pathExists (fs : Fs) (p : Path) : Bool :=
  (fs p).isSome

/-- `os.path.isdir`. -/
def isDir (fs : Fs) (p : Path) : Bool :=
  match fs p with
  | some (.dir _) => true
  | _ => false

/-- `os.scandir` succeeding: the directory exists, is a directory, and is
readable.  Every other case raises in the source and is `none` here. -/
def readDir (fs : Fs) (p : Path) : Option DirContents :=
  match fs p with
  | some (.dir (some c)) => some c
  | _ => none

/-- Lexicographic comparison of two character lists by codepoint (`Char`
is ordered by its numeric value).  This is exactly how Python compares
`str` values: code point by code point, shorter prefix first; no locale
is involved. -/
def charListLe : List Char → List Char → Bool
  | [], _ => true
  | _ :: _, [] => false
  | a :: as, b :: bs =>
      if a < b then true
      else if b < a then false
      else charListLe as bs

/-- Python's `<=` on `str`, by codepoint ordinal. -/
def nameLe (a b : String) : Bool :=
  charListLe a.data b.data

/-- The name ordering as a relation, for use with `List.insertionSort`
and `List.Sorted`. -/
def NameOrder (a b : String) : Prop :=
  nameLe a b = true

instance : DecidableRel NameOrder := fun a b => by
  unfold NameOrder
  infer_instance

theorem charListLe_total : ∀ as bs : List Char,
    charListLe as bs = true ∨ charListLe bs as = true := by
  intro as
  induction as with
  | nil => intro bs; left; rfl
  | cons a as ih =>
      intro bs
      cases bs with
      | nil => right; rfl
      | cons b bs =>
          rcases lt_trichotomy a b with h | h | h
          · left; simp [charListLe, h]
          · subst h
            rcases ih bs with h' | h'
            · left; simp [charListLe, lt_irrefl, h']
            · right; simp [charListLe, lt_irrefl, h']
          · right; simp [charListLe, h]

theorem charListLe_trans : ∀ as bs cs : List Char,
    charListLe as bs = true → charListLe bs cs = true →
    charListLe as cs = true := by
  intro as
  induction as with
  | nil => intro bs cs _ _; rfl
  | cons a as ih =>
      intro bs cs h1 h2
      cases bs with
      | nil => simp [charListLe] at h1
      | cons b bs =>
          cases cs with
          | nil => simp [charListLe] at h2
          | cons c cs =>
              simp only [charListLe] at h1 h2 ⊢
              rcases lt_trichotomy a b with hab | hab | hab
              · rcases lt_trichotomy b c with hbc | hbc | hbc
                · simp [lt_trans hab hbc]
                · subst hbc; simp [hab]
                · simp [hbc, asymm hbc] at h2
              · subst hab
                rcases lt_trichotomy a c with hac | hac | hac
                · simp [hac]
                · subst hac
                  simp only [lt_irrefl, if_false] at h1 h2 ⊢
                  exact ih bs cs h1 h2
                · simp [hac, asymm hac] at h2
              · simp [hab, asymm hab] at h1

instance : IsTotal String NameOrder :=
  ⟨fun a b => charListLe_total a.data b.data⟩

instance : IsTrans String NameOrder :=
  ⟨fun _ _ _ h1 h2 => charListLe_trans _ _ _ h1 h2⟩

/-- Python `sorted` on a list of names: ascending and stable with respect
to the codepoint-ordinal `str` order. -/
def sortNames (l : List String) : List String :=
  l.insertionSort NameOrder

/-- mc.py `refresh_directory_content` (lines 126-139): start from `['..']`,
scan the directory, append the sorted directory names and then the sorted
file names; on any read failure report the error and return `['..']`. -/
def refresh_directory_content (fs : Fs) (directory : Path) : List String :=
  match readDir fs directory with
  | some c => ".." :: (sortNames c.dirs ++ sortNames c.files)
  | none => [".."]

/-- The `show_error` call in the `except` branch of
`refresh_directory_content`: `true` exactly when the read failed. -/
def refresh_reports_error (fs : Fs) (directory : Path) : Bool :=
  (readDir fs directory).isNone

/-- One pane of the browser: mc.py fields `left_dir`/`right_dir`,
`left_files`/`right_files`, `left_selected`/`right_selected`,
`left_offset`/`right_offset`.  The left and right panes run identical,
duplicated code paths, so a single record models either one. -/
structure PaneState where
  dir : Path
  files : List String
  selected : Nat
  offset : Nat
deriving DecidableEq

/-- `os.path.basename` on an absolute path (`''` at the root). -/
def basename (p : Path) : String :=
  p.getLast?.getD ""

/-- `os.path.dirname` on an absolute path (the root is its own parent). -/
def dirname (p : Path) : Path :=
  p.dropLast

/-- mc.py `_adjust_scroll` (lines 630-657), with `v` the visible height
(`panel.getmaxyx()[0] - 2`): scroll up when the cursor is above the
window, scroll down when it is at or below the bottom.  In the second
branch the Python value `selected - v + 1` is nonnegative (the branch
gives `selected ≥ offset + v ≥ v`), so the truncated `selected + 1 - v`
agrees with it. -/
def adjust_scroll (v : Nat) (selected offset : Nat) : Nat :=
  if selected < offset then selected
  else if offset + v ≤ selected then selected + 1 - v
  else offset

/-- mc.py `_handle_up_key` (lines 763-772): decrement the selection when
it is positive, then re-adjust the scroll offset. -/
def handle_up_key (v : Nat) (p : PaneState) : PaneState :=
  if 0 < p.selected then
    let s := p.selected - 1
    { p with selected := s, offset := adjust_scroll v s p.offset }
  else p

/-- mc.py `_handle_down_key` (lines 774-783): increment the selection while
`selected < len(files) - 1` (over Python ints, equivalent to
`selected + 1 < files.length`), then re-adjust the scroll offset. -/
def handle_down_key (v : Nat) (p : PaneState) : PaneState :=
  if p.selected + 1 < p.files.length then
    let s := p.selected + 1
    { p with selected := s, offset := adjust_scroll v s p.offset }
  else p

/-- mc.py `handle_enter` (lines 659-698) for the active pane, with `v` the
visible height (`getmaxyx()[0] - 2`; the source's `getmaxyx()[0] - 3` is
therefore `v - 1`, and its `max(0, selected - (v - 1))` is the truncated
subtraction, faithful whenever the window has `v ≥ 1`).  On the parent
marker: go to the parent directory when it exists, reload, and place the
cursor on the entry named like the directory just left (0 when absent).
On a directory entry: enter it, reload, cursor and scroll to 0.  On a
file the navigation layer does nothing. -/
def handle_enter (fs : Fs) (v : Nat) (p : PaneState) : PaneState :=
  let selected_file := p.files.getD p.selected ""
  if selected_file = ".." then
    let current_dir_name := basename p.dir
    let new_dir := dirname p.dir
    if pathExists fs new_dir then
      let files := refresh_directory_content fs new_dir
      let sel := if current_dir_name ∈ files then files.indexOf current_dir_name else 0
      { dir := new_dir, files := files, selected := sel, offset := sel - (v - 1) }
    else p
  else
    let new_dir := p.dir ++ [selected_file]
    if isDir fs new_dir then
      { dir := new_dir, files := refresh_directory_content fs new_dir,
        selected := 0, offset := 0 }
    else p

/-- mc.py `handle_resize` (lines 700-719) for one pane, with `v` the new
visible height after the windows are recreated: when the cursor has
fallen below the new window (`selected - offset >= height` over Python
ints, equivalent to `offset + v ≤ selected` for `v ≥ 1` since Python's
difference is negative whenever `offset > selected`), pull the offset
down to `max(0, selected - height + 1)`, which the truncated
`selected + 1 - v` computes. -/
def handle_resize (v : Nat) (p : PaneState) : PaneState :=
  if p.offset + v ≤ p.selected then
    { p with offset := p.selected + 1 - v }
  else p

/-- A pane together with the visible height of its panel window (the
window geometry the transitions read back via `getmaxyx`). -/
structure AppPane where
  pane : PaneState
  vh : Nat
deriving DecidableEq

/-- The navigation/resize inputs the claims quantify over: `MoveCursor(-1)`,
`MoveCursor(+1)`, `EnterSelected`, and a terminal resize that gives the
panel the new visible height `v`. -/
inductive NavOp where
  | moveUp
  | moveDown
  | enterSelected
  | resize (v : Nat)
deriving DecidableEq

/-- Dispatch of one input to the handlers of mc.py. -/
def navStep (fs : Fs) (s : AppPane) : NavOp → AppPane
  | .moveUp => { s with pane := handle_up_key s.vh s.pane }
  | .moveDown => { s with pane := handle_down_key s.vh s.pane }
  | .enterSelected => { s with pane := handle_enter fs s.vh s.pane }
  | .resize v => { pane := handle_resize v s.pane, vh := v }

/-- A whole input sequence, first input first. -/
def navRun (fs : Fs) (s : AppPane) : List NavOp → AppPane
  | [] => s
  | op :: ops => navRun fs (navStep fs s op) ops

/-- The PaneState invariants of spec section 3: a non-empty entry list, a
selection inside it, and a scroll offset that keeps the selection inside
the visible window.  The lower bounds `0 ≤ selectedIndex` and
`0 ≤ scrollOffset` are carried by the `Nat` type. -/
def Invariant (s : AppPane) : Prop :=
  s.pane.files ≠ [] ∧
  s.pane.selected < s.pane.files.length ∧
  s.pane.offset ≤ s.pane.selected ∧
  s.pane.selected < s.pane.offset + s.vh

instance : DecidablePred Invariant := fun s => by
  unfold Invariant
  infer_instance

/-- A freshly loaded pane as the application builds it on startup and after
entering a directory: listing loaded, cursor and scroll at 0. -/
def initialPane (fs : Fs) (d : Path) : PaneState :=
  { dir := d, files := refresh_directory_content fs d, selected := 0, offset := 0 }

theorem refresh_directory_content_ne_nil (fs : Fs) (d : Path) :
    refresh_directory_content fs d ≠ [] := by
  unfold refresh_directory_content
  cases readDir fs d <;> simp

theorem refresh_directory_content_head (fs : Fs) (d : Path) :
    (refresh_directory_content fs d).head? = some ".." := by
  unfold refresh_directory_content
  cases readDir fs d <;> simp

theorem length_refresh_directory_content_pos (fs : Fs) (d : Path) :
    0 < (refresh_directory_content fs d).length := by
  cases h : refresh_directory_content fs d with
  | nil => exact absurd h (refresh_directory_content_ne_nil fs d)
  | cons a l => simp

theorem invariant_handle_up (v : Nat) (p : PaneState) (hv : 1 ≤ v)
    (h : Invariant ⟨p, v⟩) : Invariant ⟨handle_up_key v p, v⟩ := by
  obtain ⟨h1, h2, h3, h4⟩ := h
  unfold Invariant handle_up_key adjust_scroll at *
  dsimp only at *
  split_ifs <;> simp_all <;> omega

theorem invariant_handle_down (v : Nat) (p : PaneState) (hv : 1 ≤ v)
    (h : Invariant ⟨p, v⟩) : Invariant ⟨handle_down_key v p, v⟩ := by
  obtain ⟨h1, h2, h3, h4⟩ := h
  unfold Invariant handle_down_key adjust_scroll at *
  dsimp only at *
  split_ifs <;> simp_all <;> omega

theorem invariant_handle_enter (fs : Fs) (v : Nat) (p : PaneState) (hv : 1 ≤ v)
    (h : Invariant ⟨p, v⟩) : Invariant ⟨handle_enter fs v p, v⟩ := by
  obtain ⟨h1, h2, h3, h4⟩ := h
  unfold handle_enter
  dsimp only
  by_cases hsel : p.files.getD p.selected "" = ".."
  · simp only [hsel, if_pos rfl, if_true]
    by_cases hex : pathExists fs (dirname p.dir)
    · simp only [hex, if_true]
      by_cases hmem :
          basename p.dir ∈ refresh_directory_content fs (dirname p.dir)
      · simp only [hmem, if_pos]
        unfold Invariant
        dsimp only
        have hlt := List.indexOf_lt_length.2 hmem
        exact ⟨refresh_directory_content_ne_nil _ _, hlt, by omega, by omega⟩
      · simp only [hmem, if_neg, if_false]
        unfold Invariant
        dsimp only
        exact ⟨refresh_directory_content_ne_nil _ _,
          length_refresh_directory_content_pos _ _, by omega, by omega⟩
    · simp only [hex, if_false]
      exact ⟨h1, h2, h3, h4⟩
  · simp only [hsel, if_neg, if_false]
    by_cases hdir : isDir fs (p.dir ++ [p.files.getD p.selected ""])
    · simp only [hdir, if_true]
      unfold Invariant
      dsimp only
      exact ⟨refresh_directory_content_ne_nil _ _,
        length_refresh_directory_content_pos _ _, Nat.le_refl 0, by omega⟩
    · simp only [hdir, if_false]
      exact ⟨h1, h2, h3, h4⟩

theorem invariant_handle_resize (v v' : Nat) (p : PaneState) (hv : 1 ≤ v')
    (h : Invariant ⟨p, v⟩) : Invariant ⟨handle_resize v' p, v'⟩ := by
  obtain ⟨h1, h2, h3, h4⟩ := h
  unfold Invariant handle_resize at *
  dsimp only at *
  split_ifs with hc
  · dsimp only
    exact ⟨h1, h2, by omega, by omega⟩
  · exact ⟨h1, h2, h3, by omega⟩

theorem navStep_invariant (fs : Fs) (op : NavOp) (s : AppPane)
    (h : Invariant s) (hvh : 1 ≤ s.vh)
    (hop : ∀ v, op = NavOp.resize v → 1 ≤ v) :
    Invariant (navStep fs s op) ∧ 1 ≤ (navStep fs s op).vh := by
  cases op with
  | moveUp => exact ⟨invariant_handle_up s.vh s.pane hvh h, hvh⟩
  | moveDown => exact ⟨invariant_handle_down s.vh s.pane hvh h, hvh⟩
  | enterSelected => exact ⟨invariant_handle_enter fs s.vh s.pane hvh h, hvh⟩
  | resize v =>
      have hv : 1 ≤ v := hop v rfl
      exact ⟨invariant_handle_resize s.vh v s.pane hv h, hv⟩

theorem navRun_invariant (fs : Fs) (ops : List NavOp) (s : AppPane)
    (h : Invariant s) (hvh : 1 ≤ s.vh)
    (hops : ∀ v, NavOp.resize v ∈ ops → 1 ≤ v) :
    Invariant (navRun fs s ops) ∧ 1 ≤ (navRun fs s ops).vh := by
  induction ops generalizing s with
  | nil => exact ⟨h, hvh⟩
  | cons op ops ih =>
      have hstep := navStep_invariant fs op s h hvh
        (fun v hv => hops v (by rw [hv]; exact List.mem_cons_self _ _))
      exact ih (navStep fs s op) hstep.1 hstep.2
        (fun v hv => hops v (List.mem_cons_of_mem _ hv))

/-- A freshly loaded pane satisfies the invariants whenever the panel window
shows at least one row. -/
theorem invariant_initialPane (fs : Fs) (d : Path) (v : Nat) (hv : 1 ≤ v) :
    Invariant ⟨initialPane fs d, v⟩ := by
  unfold Invariant initialPane
  dsimp only
  exact ⟨refresh_directory_content_ne_nil fs d,
    length_refresh_directory_content_pos fs d, Nat.le_refl 0, by omega⟩

/-- Claim C1: for every pane and every sequence of MoveCursor, EnterSelected
and resize transitions (each resize giving the panel a positive visible
height), a pane that satisfies the PaneState invariants keeps satisfying
them after every transition completes: the entry list stays non-empty,
`0 ≤ selectedIndex < len(entries)`, `0 ≤ scrollOffset ≤ selectedIndex`, and
`selectedIndex < scrollOffset + visibleHeight`.  Quantifying over all input
sequences covers every prefix, hence every intermediate state. -/
theorem c1_pane_invariants (fs : Fs) (ops : List NavOp) (s : AppPane)
    (h : Invariant s) (hvh : 1 ≤ s.vh)
    (hops : ∀ v, NavOp.resize v ∈ ops → 1 ≤ v) :
    Invariant (navRun fs s ops) :=
  (navRun_invariant fs ops s h hvh hops).1

/-- A small concrete filesystem used by the closed witnesses:
root with directories `a`, `b` and file `f.txt`; `a` holds file `x`;
`b` is empty; `c` exists but cannot be read. -/
def fsA : Fs := fun p =>
  match p with
  | [] => some (.dir (some ⟨["b", "a", "c"], ["f.txt"]⟩))
  | ["a"] => some (.dir (some ⟨[], ["x"]⟩))
  | ["a", "x"] => some .file
  | ["b"] => some (.dir (some ⟨[], []⟩))
  | ["c"] => some (.dir none)
  | ["f.txt"] => some .file
  | _ => none

/-- Witness for C1 at a concrete run: start at the root with visible height
5, move the cursor down twice, enter the selected directory, move up, shrink
the terminal to height 3, and enter the parent marker. -/
theorem c1_pane_invariants_witness :
    Invariant (navRun fsA ⟨initialPane fsA [], 5⟩
      [NavOp.moveDown, NavOp.moveDown, NavOp.enterSelected, NavOp.moveUp,
       NavOp.resize 3, NavOp.enterSelected]) := by
  apply c1_pane_invariants
  · decide
  · decide
  · intro v hv
    simp only [List.mem_cons, List.not_mem_nil, or_false, reduceCtorEq,
      NavOp.resize.injEq, false_or] at hv
    omega

/-- Claim C4: for every readable directory, the produced listing is the
parent marker first, then the directory names in ascending codepoint-ordinal
order, then the file names in ascending codepoint-ordinal order
(`NameOrder` is Python's `str` comparison: codepoint by codepoint, not
locale-aware). -/
theorem c4_listing_order (fs : Fs) (d : Path) (c : DirContents)
    (h : readDir fs d = some c) :
    ∃ ds fls, refresh_directory_content fs d = ".." :: (ds ++ fls) ∧
      ds.Perm c.dirs ∧ fls.Perm c.files ∧
      List.Sorted NameOrder ds ∧ List.Sorted NameOrder fls := by
  refine ⟨sortNames c.dirs, sortNames c.files, ?_, ?_, ?_, ?_, ?_⟩
  · unfold refresh_directory_content
    rw [h]
  · exact List.perm_insertionSort _ _
  · exact List.perm_insertionSort _ _
  · exact List.sorted_insertionSort _ _
  · exact List.sorted_insertionSort _ _

/-- Witness for C4 at the root of the concrete filesystem `fsA`. -/
theorem c4_listing_order_witness :
    ∃ ds fls, refresh_directory_content fsA [] = ".." :: (ds ++ fls) ∧
      ds.Perm ["b", "a", "c"] ∧ fls.Perm ["f.txt"] ∧
      List.Sorted NameOrder ds ∧ List.Sorted NameOrder fls :=
  c4_listing_order fsA [] ⟨["b", "a", "c"], ["f.txt"]⟩ (by decide)

/-- The pane a C5 witness starts from: root listing loaded, cursor on the
unreadable directory `c`. -/
def paneAtC : PaneState :=
  { dir := [], files := refresh_directory_content fsA [], selected := 3, offset := 0 }

/-- Claim C5: when a directory cannot be read (permission denied or not
found), the listing degrades to the single parent marker `..`, the failure
is reported through the error handler, and the enter transition that
targeted the directory still completes, producing the degraded but
navigable pane instead of raising past this layer. -/
theorem c5_unreadable_degrades (fs : Fs) (d : Path)
    (h : readDir fs d = none) :
    refresh_directory_content fs d = [".."] ∧
    refresh_reports_error fs d = true ∧
    (∀ (v : Nat) (p : PaneState),
      p.files.getD p.selected "" ≠ ".." →
      p.dir ++ [p.files.getD p.selected ""] = d →
      isDir fs d = true →
      handle_enter fs v p = ⟨d, [".."], 0, 0⟩) := by
  have hlist : refresh_directory_content fs d = [".."] := by
    unfold refresh_directory_content
    rw [h]
  refine ⟨hlist, ?_, ?_⟩
  · unfold refresh_reports_error
    rw [h]
    rfl
  · intro v p hsel hpath hdir
    unfold handle_enter
    dsimp only
    rw [if_neg hsel, hpath, if_pos hdir, hlist]

/-- Witness for C5: entering the unreadable directory `c` of `fsA`. -/
theorem c5_unreadable_degrades_witness :
    refresh_directory_content fsA ["c"] = [".."] ∧
    refresh_reports_error fsA ["c"] = true ∧
    handle_enter fsA 5 paneAtC = ⟨["c"], [".."], 0, 0⟩ := by
  have h := c5_unreadable_degrades fsA ["c"] (by decide)
  exact ⟨h.1, h.2.1, h.2.2 5 paneAtC (by decide) (by decide) (by decide)⟩

/-- Modelled from the spec, section 4.2: the scroll-reconciliation rule.
If `selectedIndex < scrollOffset`, set `scrollOffset = selectedIndex`;
else if `selectedIndex >= scrollOffset + visibleHeight`, set
`scrollOffset = selectedIndex - visibleHeight + 1`.  Used as the
specification-side definition that `handle_resize` is compared against. -/
def specScrollReconcile (v selected offset : Nat) : Nat :=
  if selected < offset then selected
  else if offset + v ≤ selected then (selected - v) + 1
  else offset

theorem handle_resize_eq_spec (v : Nat) (p : PaneState)
    (h : p.offset ≤ p.selected) (hv : 1 ≤ v) :
    handle_resize v p =
      { p with offset := specScrollReconcile v p.selected p.offset } := by
  cases p with
  | mk dir files selected offset =>
      simp only [handle_resize, specScrollReconcile, PaneState.mk.injEq] at *
      split_ifs <;> simp_all <;> omega

/-- Claim C9: on a terminal resize both panes get the new visible height
and their scroll offsets are re-clamped exactly by the spec's
scroll-reconciliation rule; directory path, entry list and selected index
of both panes are unchanged.  (The hypotheses are the standing invariant
`scrollOffset ≤ selectedIndex` and a positive new height.) -/
theorem c9_resize_reconciles (v : Nat) (l r : PaneState)
    (hl : l.offset ≤ l.selected) (hr : r.offset ≤ r.selected) (hv : 1 ≤ v) :
    (handle_resize v l).dir = l.dir ∧
    (handle_resize v l).files = l.files ∧
    (handle_resize v l).selected = l.selected ∧
    (handle_resize v l).offset = specScrollReconcile v l.selected l.offset ∧
    (handle_resize v r).dir = r.dir ∧
    (handle_resize v r).files = r.files ∧
    (handle_resize v r).selected = r.selected ∧
    (handle_resize v r).offset = specScrollReconcile v r.selected r.offset := by
  rw [handle_resize_eq_spec v l hl hv, handle_resize_eq_spec v r hr hv]
  exact ⟨rfl, rfl, rfl, rfl, rfl, rfl, rfl, rfl⟩

/-- Witness for C9 at the spec's scenario: visible height shrinks from 20
to 10 while `selectedIndex = 15` and `scrollOffset = 0`; afterwards the
offset is `15 - 10 + 1 = 6` and the cursor is back inside the window. -/
theorem c9_resize_reconciles_witness :
    (handle_resize 10 ⟨[], [], 15, 0⟩).offset =
        specScrollReconcile 10 15 0 ∧
      (handle_resize 10 ⟨[], [], 15, 0⟩).offset = 6 ∧
      (handle_resize 10 ⟨[], [], 15, 0⟩).selected = 15 ∧ 15 < 6 + 10 :=
  ⟨(c9_resize_reconciles 10 ⟨[], [], 15, 0⟩ ⟨[], [], 15, 0⟩ (by decide)
      (by decide) (by decide)).2.2.2.1,
   by decide, by decide, by decide⟩

/-- Claim C10: every produced listing, the filesystem root's included,
has the parent marker `..` as its first entry; and EnterSelected on `..`
while at the root leaves the directory path at the root (the parent of
the root is the root itself), a self-loop rather than a failure. -/
theorem c10_root_parent_marker (fs : Fs) (d : Path) (v : Nat) (p : PaneState)
    (hroot : p.dir = []) (hsel : p.files.getD p.selected "" = "..") :
    (refresh_directory_content fs d).head? = some ".." ∧
    (handle_enter fs v p).dir = [] := by
  refine ⟨refresh_directory_content_head fs d, ?_⟩
  unfold handle_enter
  dsimp only
  rw [if_pos hsel, hroot]
  by_cases hex : pathExists fs (dirname ([] : Path))
  · rw [if_pos hex]
    rfl
  · rw [if_neg hex]
    exact hroot

/-- Witness for C10 at the root of `fsA`. -/
theorem c10_root_parent_marker_witness :
    (refresh_directory_content fsA ["a"]).head? = some ".." ∧
    (handle_enter fsA 5 ⟨[], refresh_directory_content fsA [], 0, 0⟩).dir
      = [] :=
  c10_root_parent_marker fsA ["a"] 5 _ rfl (by decide)

theorem getD_indexOf {l : List String} {a : String} (hmem : a ∈ l) :
    l.getD (l.indexOf a) "" = a := by
  have hlt := List.indexOf_lt_length.2 hmem
  rw [List.getD_eq_getElem?_getD, List.getElem?_eq_getElem hlt,
    List.getElem_indexOf hlt]
  rfl

theorem pathExists_of_readDir {fs : Fs} {q : Path} {c : DirContents}
    (h : readDir fs q = some c) : pathExists fs q = true := by
  unfold readDir at h
  unfold pathExists
  cases hq : fs q with
  | none => rw [hq] at h; simp at h
  | some n => rfl

theorem dirname_append_basename {p : Path} (h : p ≠ []) :
    dirname p ++ [basename p] = p := by
  unfold dirname basename
  rw [List.getLast?_eq_getLast_of_ne_nil h, Option.getD_some]
  exact List.dropLast_append_getLast h

/-- Claim C6: from a non-root directory `D` with the parent marker selected
(index 0), EnterSelected moves the pane to the parent of `D` and puts the
cursor on the entry named like `D`'s basename; an immediate EnterSelected
on that entry brings the pane back to `D` with the selected index it had
before leaving (the entering transition resets the cursor to 0, which is
where it was, since the parent marker sits at index 0).  Hypotheses: the
parent directory is readable and lists `D`'s basename among its
subdirectories, and `D` itself is a directory. -/
theorem c6_round_trip (fs : Fs) (v : Nat) (p : PaneState) (c : DirContents)
    (hne : p.dir ≠ [])
    (hsel0 : p.selected = 0)
    (hself : p.files.getD p.selected "" = "..")
    (hread : readDir fs (dirname p.dir) = some c)
    (hmem : basename p.dir ∈ c.dirs)
    (hnotdots : basename p.dir ≠ "..")
    (hisdir : isDir fs p.dir = true) :
    (handle_enter fs v p).dir = dirname p.dir ∧
    (handle_enter fs v p).selected =
      (handle_enter fs v p).files.indexOf (basename p.dir) ∧
    (handle_enter fs v (handle_enter fs v p)).dir = p.dir ∧
    (handle_enter fs v (handle_enter fs v p)).selected = p.selected := by
  have hex : pathExists fs (dirname p.dir) = true := pathExists_of_readDir hread
  have hfiles1 : refresh_directory_content fs (dirname p.dir) =
      ".." :: (sortNames c.dirs ++ sortNames c.files) := by
    unfold refresh_directory_content
    rw [hread]
  have hmem1 : basename p.dir ∈ refresh_directory_content fs (dirname p.dir) := by
    rw [hfiles1]
    exact List.mem_cons_of_mem _
      (List.mem_append_left _ ((List.mem_insertionSort _).2 hmem))
  have hp1 : handle_enter fs v p =
      ⟨dirname p.dir, refresh_directory_content fs (dirname p.dir),
       (refresh_directory_content fs (dirname p.dir)).indexOf (basename p.dir),
       (refresh_directory_content fs (dirname p.dir)).indexOf (basename p.dir)
         - (v - 1)⟩ := by
    unfold handle_enter
    dsimp only
    rw [if_pos hself, if_pos hex, if_pos hmem1]
  rw [hp1]
  have hsel1 :
      ((refresh_directory_content fs (dirname p.dir)).getD
        ((refresh_directory_content fs (dirname p.dir)).indexOf
          (basename p.dir)) "") = basename p.dir := getD_indexOf hmem1
  have hjoin : dirname p.dir ++ [basename p.dir] = p.dir :=
    dirname_append_basename hne
  have hp2 : handle_enter fs v
      ⟨dirname p.dir, refresh_directory_content fs (dirname p.dir),
       (refresh_directory_content fs (dirname p.dir)).indexOf (basename p.dir),
       (refresh_directory_content fs (dirname p.dir)).indexOf (basename p.dir)
         - (v - 1)⟩ =
      ⟨p.dir, refresh_directory_content fs p.dir, 0, 0⟩ := by
    unfold handle_enter
    dsimp only
    rw [hsel1, if_neg hnotdots, hjoin, if_pos hisdir]
  rw [hp2]
  exact ⟨rfl, rfl, rfl, hsel0.symm⟩

/-- The pane a C6 witness starts from: directory `a` of `fsA`, cursor on
the parent marker. -/
def paneInA : PaneState :=
  { dir := ["a"], files := refresh_directory_content fsA ["a"],
    selected := 0, offset := 0 }

/-- Witness for C6: leave directory `a` of `fsA` through the parent marker
and re-enter it. -/
theorem c6_round_trip_witness :
    (handle_enter fsA 5 paneInA).dir = dirname paneInA.dir ∧
    (handle_enter fsA 5 paneInA).selected =
      (handle_enter fsA 5 paneInA).files.indexOf (basename paneInA.dir) ∧
    (handle_enter fsA 5 (handle_enter fsA 5 paneInA)).dir = paneInA.dir ∧
    (handle_enter fsA 5 (handle_enter fsA 5 paneInA)).selected
      = paneInA.selected :=
  c6_round_trip fsA 5 paneInA ⟨["b", "a", "c"], ["f.txt"]⟩ (by decide)
    (by decide) (by decide) (by decide) (by decide) (by decide) (by decide)

/-- Insert a name into a contents list unless already present. -/
def insertName (n : String) (l : List String) : List String :=
  if n ∈ l then l else l ++ [n]

/-- Drop a name from a contents list. -/
def removeName (n : String) (l : List String) : List String :=
  l.filter (fun x => x != n)

/-- Union of two name lists, keeping the first list's entries. -/
def unionNames (a b : List String) : List String :=
  a ++ b.filter (fun n => decide (n ∉ a))

/-- Merge of two readable directories, as `shutil.copytree` with
`dirs_exist_ok=True` produces it: source entries written over the
destination, destination-only entries kept. -/
def mergeContents (a b : DirContents) : DirContents :=
  ⟨unionNames a.dirs b.dirs, unionNames a.files b.files⟩

/-- Merge of a source node over a destination node: two readable
directories merge; otherwise the source (when present) wins. -/
def mergeNode : Option Node → Option Node → Option Node
  | some (.dir (some a)), some (.dir (some b)) =>
      some (.dir (some (mergeContents a b)))
  | some n, _ => some n
  | none, o => o

/-- Record a new child entry in a parent directory's contents. -/
def addEntry (n : String) (isd : Bool) : Option Node → Option Node
  | some (.dir (some c)) =>
      if isd then some (.dir (some ⟨insertName n c.dirs, c.files⟩))
      else some (.dir (some ⟨c.dirs, insertName n c.files⟩))
  | o => o

/-- Remove a child entry from a parent directory's contents. -/
def dropEntry (n : String) : Option Node → Option Node
  | some (.dir (some c)) =>
      some (.dir (some ⟨removeName n c.dirs, removeName n c.files⟩))
  | o => o

/-- The calls the orchestration layer makes into the filesystem-access
collaborator (`shutil`/`os` in the source). -/
inductive FsCall where
  | copy2 (src dst : Path)
  | copytree (src dst : Path)
  | move (src dst : Path)
  | remove (p : Path)
  | makedirs (p : Path)
deriving DecidableEq

/-- Effect of `shutil.copy2` on the filesystem (file copy; the source is
untouched, the destination becomes a file, the destination parent's
listing gains the name). -/
def applyCopy2 (fs : Fs) (src dst : Path) : Fs := fun q =>
  if q = dst then some .file
  else if q = dirname dst then addEntry (basename dst) false (fs q)
  else fs q

/-- Effect of `shutil.copytree(src, dst, dirs_exist_ok=True)`: the
destination subtree becomes the source subtree merged over whatever was
already there; the destination parent's listing gains the name. -/
def applyCopytree (fs : Fs) (src dst : Path) : Fs := fun q =>
  if dst.isPrefixOf q then mergeNode (fs (src ++ q.drop dst.length)) (fs q)
  else if q = dirname dst then addEntry (basename dst) true (fs q)
  else fs q

/-- Effect of `shutil.move` to a fresh destination (a rename): the source
subtree disappears, reappears under the destination path, and the two
parents' listings are adjusted. -/
def applyMove (fs : Fs) (src dst : Path) : Fs := fun q =>
  if src.isPrefixOf q then none
  else if dst.isPrefixOf q then fs (src ++ q.drop dst.length)
  else if q = dirname src then dropEntry (basename src) (fs q)
  else if q = dirname dst then addEntry (basename dst) (isDir fs src) (fs q)
  else fs q

/-- Effect of `shutil.rmtree` / `os.remove`. -/
def applyRemove (fs : Fs) (p : Path) : Fs := fun q =>
  if p.isPrefixOf q then none
  else if q = dirname p then dropEntry (basename p) (fs q)
  else fs q

/-- Effect of `os.makedirs` (one level, the claims never need deep
creation). -/
def applyMakedirs (fs : Fs) (p : Path) : Fs := fun q =>
  if q = p then some (.dir (some ⟨[], []⟩))
  else if q = dirname p then addEntry (basename p) true (fs q)
  else fs q

def applyCall (fs : Fs) : FsCall → Fs
  | .copy2 s d => applyCopy2 fs s d
  | .copytree s d => applyCopytree fs s d
  | .move s d => applyMove fs s d
  | .remove p => applyRemove fs p
  | .makedirs p => applyMakedirs fs p

/-- Resolution of a confirmation prompt: `MessageBox.show` in mc.py
returns `True` (affirmative key), `False` (negative key) or `None`
(escape), and the yes/no popups of mc_old.py invoke their callback only
on the affirmative answer. -/
inductive PromptResult where
  | confirm
  | decline
  | cancel
deriving DecidableEq

/-- Both panes plus the single shared active-pane indicator
(`self.active_pane` in the source, `'left'` or `'right'`). -/
structure TwoPane where
  left : PaneState
  right : PaneState
  activeLeft : Bool
deriving DecidableEq

/-- mc_old.py `get_active_pane_info`: the pane the operation reads its
source from. -/
def activePane (s : TwoPane) : PaneState :=
  if s.activeLeft then s.left else s.right

/-- The other pane, whose directory is the operation's destination. -/
def inactivePane (s : TwoPane) : PaneState :=
  if s.activeLeft then s.right else s.left

/-- The name under the active pane's cursor. -/
def selectedName (s : TwoPane) : String :=
  (activePane s).files.getD (activePane s).selected ""

/-- Source path of a requested operation. -/
def srcPathOf (s : TwoPane) : Path :=
  (activePane s).dir ++ [selectedName s]

/-- Destination path of a requested copy/move. -/
def dstPathOf (s : TwoPane) : Path :=
  (inactivePane s).dir ++ [selectedName s]

/-- The single filesystem call a confirmed copy makes:
`shutil.copytree(..., dirs_exist_ok=True)` for a directory,
`shutil.copy2` for a file (mc.py lines 455-458). -/
def copyCallOf (fs : Fs) (s : TwoPane) : FsCall :=
  if isDir fs (srcPathOf s) then FsCall.copytree (srcPathOf s) (dstPathOf s)
  else FsCall.copy2 (srcPathOf s) (dstPathOf s)

/-- Outcome of one orchestrated operation: the pane states afterwards, the
filesystem afterwards, the filesystem calls that were made, and the cache
paths that were invalidated.  The source never calls `cache_clear` on its
memoized caches (`get_dir_size`, `get_file_info` in mc.py;
`_get_file_stats` in mc_old.py), so the operations below always produce an
empty `invalidated` list. -/
structure OpOutcome where
  state : TwoPane
  fs : Fs
  calls : List FsCall
  invalidated : List Path

/-- mc.py `copy_item` (lines 417-484): reject the parent marker before any
prompt; on `Confirm` perform the copy and reload only the inactive
(destination) pane's listing against the changed filesystem; on `Decline`
or `Cancel` do nothing.  The success path is modelled; a failing filesystem
call only reports an error and refreshes nothing. -/
def copy_item (fs : Fs) (res : PromptResult) (s : TwoPane) : OpOutcome :=
  if selectedName s = ".." then ⟨s, fs, [], []⟩
  else
    match res with
    | .confirm =>
        let call := copyCallOf fs s
        let fs' := applyCall fs call
        let refreshed : PaneState :=
          { inactivePane s with
              files := refresh_directory_content fs' (inactivePane s).dir }
        ⟨if s.activeLeft then { s with right := refreshed }
          else { s with left := refreshed }, fs', [call], []⟩
    | .decline => ⟨s, fs, [], []⟩
    | .cancel => ⟨s, fs, [], []⟩

/-- mc_old.py `refresh_file_lists` after a mutating operation: both panes
reload their listings (their directories' states changed). -/
def refreshBoth (fs : Fs) (s : TwoPane) : TwoPane :=
  { s with
      left := { s.left with files := refresh_directory_content fs s.left.dir },
      right := { s.right with files := refresh_directory_content fs s.right.dir } }

/-- Python `os.path.splitext` on a bare filename: split before the last
dot, except that a name whose characters before that dot are all dots
(hidden files like `.bashrc`) has no extension. -/
def splitext (s : String) : String × String :=
  let cs := s.data
  if ('.' : Char) ∈ cs then
    let k := cs.length - 1 - cs.reverse.indexOf '.'
    if (cs.take k).all (fun c => c == '.') then (s, "")
    else (⟨cs.take k⟩, ⟨cs.drop k⟩)
  else (s, "")

/-- The base and the extension of `splitext` rejoin to the original name. -/
theorem splitext_append (s : String) : (splitext s).1 ++ (splitext s).2 = s := by
  cases s with
  | mk cs =>
      unfold splitext
      dsimp only
      split_ifs
      · exact congrArg String.mk (List.append_nil cs)
      · exact congrArg String.mk (List.take_append_drop _ cs)
      · exact congrArg String.mk (List.append_nil cs)

/-- The collision name `f"{base}_moved{i}{ext}"` of mc_old.py `_do_move`. -/
def movedName (base ext : String) (i : Nat) : String :=
  base ++ "_moved" ++ toString i ++ ext

/-- The `i`-th destination path probed by the collision loop of
`_do_move`: the destination directory joined with the synthesized name. -/
def moveCandidate (src dst : Path) (i : Nat) : Path :=
  dirname dst ++
    [movedName (splitext (basename src)).1 (splitext (basename src)).2 i]

/-- Termination fact for the probing loop of `_do_move`: some candidate
name is unused.  True of every real (finite) filesystem; the abstract
`Fs` type also admits infinite filesystems, on which the source's `while`
loop would genuinely diverge, so the fact is taken as a hypothesis. -/
def MoveFree (fs : Fs) (src dst : Path) : Prop :=
  ∃ i, 0 < i ∧ pathExists fs (moveCandidate src dst i) = false

/-- mc_old.py `_do_move` (lines 570-590): when the destination path
already exists, probe `name_moved1.ext`, `name_moved2.ext`, ... for the
first unused candidate (`Nat.find` is the loop that starts at `i = 1` and
increments while `os.path.exists`), then `shutil.move` there; otherwise
move straight to the destination.  Returns the filesystem afterwards and
the destination path used. -/
def do_move (fs : Fs) (src dst : Path)
    (h : pathExists fs dst = true → MoveFree fs src dst) : Fs × Path :=
  if hc : pathExists fs dst = true then
    let dst' := moveCandidate src dst (Nat.find (h hc))
    (applyMove fs src dst', dst')
  else (applyMove fs src dst, dst)

/-- mc_old.py `move_file` (lines 555-568) plus its confirmation popup:
reject the parent marker before any prompt; only the affirmative answer
invokes `_do_move` (the popup calls the callback on yes only), after which
both panes reload; any other answer changes nothing. -/
def move_file (fs : Fs) (res : PromptResult) (s : TwoPane)
    (h : res = PromptResult.confirm → pathExists fs (dstPathOf s) = true →
      MoveFree fs (srcPathOf s) (dstPathOf s)) : OpOutcome :=
  if selectedName s = ".." then ⟨s, fs, [], []⟩
  else if hres : res = PromptResult.confirm then
    let r := do_move fs (srcPathOf s) (dstPathOf s) (h hres)
    ⟨refreshBoth r.1 s, r.1, [FsCall.move (srcPathOf s) r.2], []⟩
  else ⟨s, fs, [], []⟩

/-- mc_old.py `delete_file` (lines 592-617) plus its confirmation popup:
reject the parent marker before any prompt; only the affirmative answer
invokes `_do_delete` (`shutil.rmtree` for a directory, `os.remove` for a
file, both modelled by `applyRemove`), after which both panes reload. -/
def delete_file (fs : Fs) (res : PromptResult) (s : TwoPane) : OpOutcome :=
  if selectedName s = ".." then ⟨s, fs, [], []⟩
  else
    match res with
    | .confirm =>
        let fs' := applyRemove fs (srcPathOf s)
        ⟨refreshBoth fs' s, fs', [FsCall.remove (srcPathOf s)], []⟩
    | _ => ⟨s, fs, [], []⟩

/-- mc_old.py `make_directory` / `_do_make_directory` (lines 619-642) plus
its text prompt: the callback runs only when the prompt is accepted with a
name; an empty or all-whitespace name is rejected without a filesystem
call (`if not dir_name or dir_name.isspace()`); otherwise `os.makedirs`
runs and both panes reload. -/
def make_directory (fs : Fs) (res : PromptResult) (name : String)
    (s : TwoPane) : OpOutcome :=
  match res with
  | .confirm =>
      if name.data.all (fun c => c.isWhitespace) then ⟨s, fs, [], []⟩
      else
        let p := (activePane s).dir ++ [name]
        let fs' := applyMakedirs fs p
        ⟨refreshBoth fs' s, fs', [FsCall.makedirs p], []⟩
  | _ => ⟨s, fs, [], []⟩

/-- Claim C2: when the confirmation prompt of any of the four file
operations resolves to Decline or Cancel, no filesystem call is made, no
cache entry is invalidated, and both panes (directory path, entries,
selected index, scroll offset) and the filesystem are exactly what they
were before the request. -/
theorem c2_decline_cancel_no_effect (fs : Fs) (s : TwoPane)
    (res : PromptResult) (name : String)
    (h : res = PromptResult.confirm → pathExists fs (dstPathOf s) = true →
      MoveFree fs (srcPathOf s) (dstPathOf s))
    (hres : res = PromptResult.decline ∨ res = PromptResult.cancel) :
    copy_item fs res s = ⟨s, fs, [], []⟩ ∧
    move_file fs res s h = ⟨s, fs, [], []⟩ ∧
    delete_file fs res s = ⟨s, fs, [], []⟩ ∧
    make_directory fs res name s = ⟨s, fs, [], []⟩ := by
  have hne : res ≠ PromptResult.confirm := by
    rcases hres with h' | h' <;> subst h' <;> decide
  refine ⟨?_, ?_, ?_, ?_⟩
  · unfold copy_item
    rcases hres with h' | h' <;> subst h' <;> split_ifs <;> rfl
  · unfold move_file
    by_cases h1 : selectedName s = ".."
    · rw [if_pos h1]
    · rw [if_neg h1, dif_neg hne]
  · unfold delete_file
    rcases hres with h' | h' <;> subst h' <;> split_ifs <;> rfl
  · unfold make_directory
    rcases hres with h' | h' <;> subst h' <;> rfl

/-- The two-pane state the operation witnesses start from: active left
pane inside `a` with the cursor on file `x`, right pane inside `b`. -/
def twoA : TwoPane :=
  { left := { dir := ["a"], files := refresh_directory_content fsA ["a"],
              selected := 1, offset := 0 },
    right := { dir := ["b"], files := refresh_directory_content fsA ["b"],
               selected := 0, offset := 0 },
    activeLeft := true }

/-- A declined prompt never reaches the move loop, so its termination fact
holds vacuously. -/
theorem moveFree_of_decline :
    PromptResult.decline = PromptResult.confirm →
    pathExists fsA (dstPathOf twoA) = true →
    MoveFree fsA (srcPathOf twoA) (dstPathOf twoA) :=
  fun hh => absurd hh (by decide)

/-- Witness for C2: declining each of the four operations on the concrete
state `twoA` leaves everything unchanged. -/
theorem c2_decline_cancel_no_effect_witness :
    copy_item fsA PromptResult.decline twoA = ⟨twoA, fsA, [], []⟩ ∧
    move_file fsA PromptResult.decline twoA moveFree_of_decline
      = ⟨twoA, fsA, [], []⟩ ∧
    delete_file fsA PromptResult.decline twoA = ⟨twoA, fsA, [], []⟩ ∧
    make_directory fsA PromptResult.decline "newdir" twoA
      = ⟨twoA, fsA, [], []⟩ :=
  c2_decline_cancel_no_effect fsA twoA PromptResult.decline "newdir"
    moveFree_of_decline (Or.inl rfl)

/-- Counterexample to claim C3 as stated: after the confirmed copy of
`a/x` into `b` (active left pane at `a`, right pane at `b`), the
destination parent `b` — an affected directory — is not among the
invalidated cache entries: the source never clears its memoized caches
(no `cache_clear` call exists in either file), and only the inactive pane
is reloaded (the active pane state is returned untouched). -/
theorem c3_counterexample :
    ["b"] ∉ (copy_item fsA PromptResult.confirm twoA).invalidated ∧
    (copy_item fsA PromptResult.confirm twoA).state.left = twoA.left := by
  constructor
  · decide
  · decide

/-- Claim C3 amended: after a confirmed file operation no cache entry is
ever invalidated (the memoized caches are never cleared), and the reload
step is per-operation.  A confirmed copy (mc.py `copy_item`) makes exactly
one filesystem call, reloads only the inactive (destination) pane's
listing — from the post-operation filesystem — and leaves the active pane
untouched even when its directory is an affected directory.  A confirmed
move, delete or mkdir (mc_old.py) makes its filesystem call and then
reloads both panes' listings through `refresh_file_lists`, modelled by
`refreshBoth`, keeping each pane's path, selection and scroll offset. -/
theorem c3_confirmed_op_refresh (fs : Fs) (s : TwoPane) (name : String)
    (h : PromptResult.confirm = PromptResult.confirm →
      pathExists fs (dstPathOf s) = true →
      MoveFree fs (srcPathOf s) (dstPathOf s))
    (hsel : selectedName s ≠ "..")
    (hname : name.data.all (fun c => c.isWhitespace) = false) :
    (copy_item fs PromptResult.confirm s).invalidated = [] ∧
    (copy_item fs PromptResult.confirm s).calls = [copyCallOf fs s] ∧
    (copy_item fs PromptResult.confirm s).fs
      = applyCall fs (copyCallOf fs s) ∧
    activePane (copy_item fs PromptResult.confirm s).state = activePane s ∧
    (inactivePane (copy_item fs PromptResult.confirm s).state).dir
      = (inactivePane s).dir ∧
    (inactivePane (copy_item fs PromptResult.confirm s).state).files
      = refresh_directory_content (applyCall fs (copyCallOf fs s))
          (inactivePane s).dir ∧
    (move_file fs PromptResult.confirm s h).invalidated = [] ∧
    (move_file fs PromptResult.confirm s h).calls
      = [FsCall.move (srcPathOf s)
          (do_move fs (srcPathOf s) (dstPathOf s) (h rfl)).2] ∧
    (move_file fs PromptResult.confirm s h).fs
      = (do_move fs (srcPathOf s) (dstPathOf s) (h rfl)).1 ∧
    (move_file fs PromptResult.confirm s h).state
      = refreshBoth (move_file fs PromptResult.confirm s h).fs s ∧
    (delete_file fs PromptResult.confirm s).invalidated = [] ∧
    (delete_file fs PromptResult.confirm s).calls
      = [FsCall.remove (srcPathOf s)] ∧
    (delete_file fs PromptResult.confirm s).fs
      = applyRemove fs (srcPathOf s) ∧
    (delete_file fs PromptResult.confirm s).state
      = refreshBoth (delete_file fs PromptResult.confirm s).fs s ∧
    (make_directory fs PromptResult.confirm name s).invalidated = [] ∧
    (make_directory fs PromptResult.confirm name s).calls
      = [FsCall.makedirs ((activePane s).dir ++ [name])] ∧
    (make_directory fs PromptResult.confirm name s).fs
      = applyMakedirs fs ((activePane s).dir ++ [name]) ∧
    (make_directory fs PromptResult.confirm name s).state
      = refreshBoth (make_directory fs PromptResult.confirm name s).fs s := by
  have hcopy :
      (copy_item fs PromptResult.confirm s).invalidated = [] ∧
      (copy_item fs PromptResult.confirm s).calls = [copyCallOf fs s] ∧
      (copy_item fs PromptResult.confirm s).fs
        = applyCall fs (copyCallOf fs s) ∧
      activePane (copy_item fs PromptResult.confirm s).state = activePane s ∧
      (inactivePane (copy_item fs PromptResult.confirm s).state).dir
        = (inactivePane s).dir ∧
      (inactivePane (copy_item fs PromptResult.confirm s).state).files
        = refresh_directory_content (applyCall fs (copyCallOf fs s))
            (inactivePane s).dir := by
    cases hA : s.activeLeft <;>
      simp [copy_item, activePane, inactivePane, hsel, hA]
  have hmv : move_file fs PromptResult.confirm s h =
      ⟨refreshBoth (do_move fs (srcPathOf s) (dstPathOf s) (h rfl)).1 s,
       (do_move fs (srcPathOf s) (dstPathOf s) (h rfl)).1,
       [FsCall.move (srcPathOf s)
         (do_move fs (srcPathOf s) (dstPathOf s) (h rfl)).2], []⟩ := by
    unfold move_file
    rw [if_neg hsel, dif_pos rfl]
  have hdel : delete_file fs PromptResult.confirm s =
      ⟨refreshBoth (applyRemove fs (srcPathOf s)) s,
       applyRemove fs (srcPathOf s), [FsCall.remove (srcPathOf s)], []⟩ := by
    unfold delete_file
    rw [if_neg hsel]
  have hmk : make_directory fs PromptResult.confirm name s =
      ⟨refreshBoth (applyMakedirs fs ((activePane s).dir ++ [name])) s,
       applyMakedirs fs ((activePane s).dir ++ [name]),
       [FsCall.makedirs ((activePane s).dir ++ [name])], []⟩ := by
    unfold make_directory
    simp [hname]
  obtain ⟨hc1, hc2, hc3, hc4, hc5, hc6⟩ := hcopy
  rw [hmv, hdel, hmk]
  exact ⟨hc1, hc2, hc3, hc4, hc5, hc6, rfl, rfl, rfl, rfl, rfl, rfl,
    rfl, rfl, rfl, rfl, rfl, rfl⟩

/-- The move confirmed on `twoA` never reaches the probing loop: its
destination `b/x` does not exist, so the termination fact is vacuous. -/
theorem moveFree_twoA : PromptResult.confirm = PromptResult.confirm →
    pathExists fsA (dstPathOf twoA) = true →
    MoveFree fsA (srcPathOf twoA) (dstPathOf twoA) :=
  fun _ hc => absurd hc (by decide)

/-- Witness for C3's amended statement at concrete confirmed operations on
`twoA` (copy/move/delete of `a/x` with destination directory `b`, and
mkdir of `newdir`). -/
theorem c3_confirmed_op_refresh_witness :
    (copy_item fsA PromptResult.confirm twoA).invalidated = [] ∧
    (copy_item fsA PromptResult.confirm twoA).calls
      = [copyCallOf fsA twoA] ∧
    (copy_item fsA PromptResult.confirm twoA).fs
      = applyCall fsA (copyCallOf fsA twoA) ∧
    activePane (copy_item fsA PromptResult.confirm twoA).state
      = activePane twoA ∧
    (inactivePane (copy_item fsA PromptResult.confirm twoA).state).dir
      = (inactivePane twoA).dir ∧
    (inactivePane (copy_item fsA PromptResult.confirm twoA).state).files
      = refresh_directory_content (applyCall fsA (copyCallOf fsA twoA))
          (inactivePane twoA).dir ∧
    (move_file fsA PromptResult.confirm twoA moveFree_twoA).invalidated
      = [] ∧
    (move_file fsA PromptResult.confirm twoA moveFree_twoA).calls
      = [FsCall.move (srcPathOf twoA)
          (do_move fsA (srcPathOf twoA) (dstPathOf twoA)
            (moveFree_twoA rfl)).2] ∧
    (move_file fsA PromptResult.confirm twoA moveFree_twoA).fs
      = (do_move fsA (srcPathOf twoA) (dstPathOf twoA)
          (moveFree_twoA rfl)).1 ∧
    (move_file fsA PromptResult.confirm twoA moveFree_twoA).state
      = refreshBoth (move_file fsA PromptResult.confirm twoA moveFree_twoA).fs
          twoA ∧
    (delete_file fsA PromptResult.confirm twoA).invalidated = [] ∧
    (delete_file fsA PromptResult.confirm twoA).calls
      = [FsCall.remove (srcPathOf twoA)] ∧
    (delete_file fsA PromptResult.confirm twoA).fs
      = applyRemove fsA (srcPathOf twoA) ∧
    (delete_file fsA PromptResult.confirm twoA).state
      = refreshBoth (delete_file fsA PromptResult.confirm twoA).fs twoA ∧
    (make_directory fsA PromptResult.confirm "newdir" twoA).invalidated
      = [] ∧
    (make_directory fsA PromptResult.confirm "newdir" twoA).calls
      = [FsCall.makedirs ((activePane twoA).dir ++ ["newdir"])] ∧
    (make_directory fsA PromptResult.confirm "newdir" twoA).fs
      = applyMakedirs fsA ((activePane twoA).dir ++ ["newdir"]) ∧
    (make_directory fsA PromptResult.confirm "newdir" twoA).state
      = refreshBoth (make_directory fsA PromptResult.confirm "newdir" twoA).fs
          twoA :=
  c3_confirmed_op_refresh fsA twoA "newdir" moveFree_twoA (by decide)
    (by decide)

theorem isPrefixOf_self {α} [BEq α] [LawfulBEq α] (l : List α) :
    l.isPrefixOf l = true := by
  induction l with
  | nil => rfl
  | cons a as ih => simp [List.isPrefixOf, ih]

theorem isPrefixOf_append {α} [BEq α] [LawfulBEq α] (l t : List α) :
    l.isPrefixOf (l ++ t) = true := by
  induction l with
  | nil => cases t <;> rfl
  | cons a as ih => simp [List.isPrefixOf, ih]

theorem length_le_of_isPrefixOf {α} [BEq α] [LawfulBEq α] :
    ∀ (l m : List α), l.isPrefixOf m = true → l.length ≤ m.length := by
  intro l
  induction l with
  | nil => intro m _; simp
  | cons a as ih =>
      intro m h
      cases m with
      | nil => simp [List.isPrefixOf] at h
      | cons b bs =>
          simp only [List.isPrefixOf, Bool.and_eq_true] at h
          simpa using Nat.succ_le_succ (ih bs h.2)

theorem isPrefixOf_snoc {α} [BEq α] [LawfulBEq α] :
    ∀ (xs l : List α) (a : α), l.isPrefixOf (xs ++ [a]) = true →
      l.isPrefixOf xs = true ∨ l = xs ++ [a] := by
  intro xs
  induction xs with
  | nil =>
      intro l a h
      cases l with
      | nil => left; rfl
      | cons x ls =>
          cases ls with
          | nil =>
              right
              simp only [List.nil_append]
              simp only [List.isPrefixOf, Bool.and_eq_true, beq_iff_eq] at h
              rw [h.1]
          | cons y ys =>
              simp [List.isPrefixOf] at h
  | cons b bs ih =>
      intro l a h
      cases l with
      | nil => left; rfl
      | cons x ls =>
          simp only [List.cons_append, List.isPrefixOf, Bool.and_eq_true,
            beq_iff_eq] at h
          rcases ih ls a h.2 with h' | h'
          · left
            simp [List.isPrefixOf, h.1, h']
          · right
            rw [h.1, h']
            rfl

theorem append_singleton_ne (xs : List String) (a : String) :
    xs ++ [a] ≠ xs := by
  intro h
  have := congrArg List.length h
  simp at this

/-- Claim C7: a confirmed move whose destination path already exists never
overwrites.  The probing loop of `_do_move` picks the first unused
synthesized name `base_moved{i}ext` (the hypotheses say the loop
terminates, that the source does not sit in or above the destination
directory and vice versa, as for two panes showing genuinely different
directories): the chosen destination is `moveCandidate src dst i` for the
least admissible `i`, its name was unused, every smaller candidate was in
use, afterwards the source path no longer exists, the moved node sits
under the fresh name, and every pre-existing entry of the destination
directory is exactly what it was. -/
theorem c7_move_collision (fs : Fs) (src dst : Path)
    (h : pathExists fs dst = true → MoveFree fs src dst)
    (hc : pathExists fs dst = true)
    (hpar : dirname src ≠ dirname dst)
    (hsp : src.isPrefixOf (dirname dst) = false)
    (hdp : (dirname dst).isPrefixOf (dirname src) = false) :
    ∃ i, 0 < i ∧
      (do_move fs src dst h).2 = moveCandidate src dst i ∧
      pathExists fs (moveCandidate src dst i) = false ∧
      (∀ j, 0 < j → j < i →
        pathExists fs (moveCandidate src dst j) = true) ∧
      (do_move fs src dst h).1 src = none ∧
      (do_move fs src dst h).1 (moveCandidate src dst i) = fs src ∧
      (∀ n, pathExists fs (dirname dst ++ [n]) = true →
        (do_move fs src dst h).1 (dirname dst ++ [n])
          = fs (dirname dst ++ [n])) := by
  have hfind := Nat.find_spec (h hc)
  set i := Nat.find (h hc) with hidef
  have hdm : do_move fs src dst h =
      (applyMove fs src (moveCandidate src dst i), moveCandidate src dst i) := by
    unfold do_move
    rw [dif_pos hc]
  set mn := movedName (splitext (basename src)).1 (splitext (basename src)).2 i
    with hmn
  have hcand : moveCandidate src dst i = dirname dst ++ [mn] := rfl
  -- the source path is never a prefix of a child of the destination directory
  have hsrc_not_pref : ∀ n : String,
      src.isPrefixOf (dirname dst ++ [n]) = false := by
    intro n
    cases hb : src.isPrefixOf (dirname dst ++ [n]) with
    | false => rfl
    | true =>
        rcases isPrefixOf_snoc (dirname dst) src n hb with h' | h'
        · rw [hsp] at h'
          cases h'
        · exfalso
          apply hpar
          rw [h']
          simp [dirname]
  refine ⟨i, hfind.1, ?_, hfind.2, ?_, ?_, ?_, ?_⟩
  · rw [hdm]
  · intro j hj hlt
    have hmin := Nat.find_min (h hc) hlt
    cases hbb : pathExists fs (moveCandidate src dst j) with
    | true => rfl
    | false => exact absurd ⟨hj, hbb⟩ hmin
  · rw [hdm]
    dsimp only
    unfold applyMove
    rw [isPrefixOf_self]
    rfl
  · rw [hdm]
    dsimp only
    unfold applyMove
    rw [hcand, hsrc_not_pref mn, isPrefixOf_self]
    simp
  · intro n hn
    rw [hdm]
    dsimp only
    have hdst'_not_pref :
        (moveCandidate src dst i).isPrefixOf (dirname dst ++ [n]) = false := by
      cases hb : (moveCandidate src dst i).isPrefixOf (dirname dst ++ [n]) with
      | false => rfl
      | true =>
          rcases isPrefixOf_snoc (dirname dst) (moveCandidate src dst i) n hb
            with h' | h'
          · exfalso
            have hlen := length_le_of_isPrefixOf _ _ h'
            rw [hcand] at hlen
            simp at hlen
          · exfalso
            rw [hcand] at h'
            have hmneq : mn = n := by
              have := List.append_cancel_left h'
              simpa using this
            rw [← hmneq] at hn
            rw [← hcand] at hn
            rw [hfind.2] at hn
            cases hn
    have hne_src : dirname dst ++ [n] ≠ dirname src := by
      intro heq
      rw [← heq] at hdp
      rw [isPrefixOf_append] at hdp
      cases hdp
    have hne_dst' : dirname dst ++ [n] ≠ dirname (moveCandidate src dst i) := by
      rw [hcand]
      simp only [dirname, List.dropLast_concat]
      exact append_singleton_ne (dirname dst) n
    unfold applyMove
    rw [hsrc_not_pref n, hdst'_not_pref, if_neg hne_src, if_neg hne_dst']
    rfl

/-- Concrete filesystem for the C7 witness: `a` holds `x.txt`; `b`
already holds both `x.txt` and `x_moved1.txt`, so the probing loop must
step past `i = 1` and settle on `x_moved2.txt`. -/
def fsB : Fs := fun p =>
  match p with
  | [] => some (.dir (some ⟨["a", "b"], []⟩))
  | ["a"] => some (.dir (some ⟨[], ["x.txt"]⟩))
  | ["a", "x.txt"] => some .file
  | ["b"] => some (.dir (some ⟨[], ["x.txt", "x_moved1.txt"]⟩))
  | ["b", "x.txt"] => some .file
  | ["b", "x_moved1.txt"] => some .file
  | _ => none

/-- The probing loop terminates on `fsB`: candidate 2 is unused. -/
theorem moveFreeB : pathExists fsB ["b", "x.txt"] = true →
    MoveFree fsB ["a", "x.txt"] ["b", "x.txt"] :=
  fun _ => ⟨2, by decide, by decide⟩

/-- Witness for C7: moving `a/x.txt` onto the occupied `b/x.txt` of
`fsB`. -/
theorem c7_move_collision_witness :
    ∃ i, 0 < i ∧
      (do_move fsB ["a", "x.txt"] ["b", "x.txt"] moveFreeB).2
        = moveCandidate ["a", "x.txt"] ["b", "x.txt"] i ∧
      pathExists fsB (moveCandidate ["a", "x.txt"] ["b", "x.txt"] i)
        = false ∧
      (∀ j, 0 < j → j < i →
        pathExists fsB (moveCandidate ["a", "x.txt"] ["b", "x.txt"] j)
          = true) ∧
      (do_move fsB ["a", "x.txt"] ["b", "x.txt"] moveFreeB).1 ["a", "x.txt"]
        = none ∧
      (do_move fsB ["a", "x.txt"] ["b", "x.txt"] moveFreeB).1
          (moveCandidate ["a", "x.txt"] ["b", "x.txt"] i)
        = fsB ["a", "x.txt"] ∧
      (∀ n, pathExists fsB (dirname ["b", "x.txt"] ++ [n]) = true →
        (do_move fsB ["a", "x.txt"] ["b", "x.txt"] moveFreeB).1
            (dirname ["b", "x.txt"] ++ [n])
          = fsB (dirname ["b", "x.txt"] ++ [n])) :=
  c7_move_collision fsB ["a", "x.txt"] ["b", "x.txt"] moveFreeB
    (by decide) (by decide) (by decide) (by decide)

/-- The terminal-control calls the external-process bridge makes:
`curses.def_prog_mode()`, `curses.endwin()` (release the terminal) and
`curses.reset_prog_mode()` (reclaim it). -/
inductive TermAction where
  | defProgMode
  | endwin
  | resetProgMode
deriving DecidableEq

/-- How launching the external process can end: normal completion with an
exit code, `FileNotFoundError` (command or interpreter not found — also
raised by the `os.chdir` into a vanished directory), `PermissionError`,
or any other exception. -/
inductive LaunchOutcome where
  | exited (code : Int)
  | notFound
  | permissionDenied
  | otherFailure
deriving DecidableEq

/-- mc.py `_execute_command` (lines 578-628), as the sequence of
terminal-control actions each exit path performs.  The `try` body calls
`def_prog_mode`, `endwin`, runs the process, then `reset_prog_mode`.
`except FileNotFoundError` and `except PermissionError` only call
`error_handler.show_error` — no `reset_prog_mode`.  The generic
`except Exception` branch does call `reset_prog_mode` (its comment even
says it restores the terminal on error), but the two specific handlers
intercept their exceptions before it. -/
def execute_command_trace : LaunchOutcome → List TermAction
  | .exited _ =>
      [TermAction.defProgMode, TermAction.endwin, TermAction.resetProgMode]
  | .notFound => [TermAction.defProgMode, TermAction.endwin]
  | .permissionDenied => [TermAction.defProgMode, TermAction.endwin]
  | .otherFailure =>
      [TermAction.defProgMode, TermAction.endwin, TermAction.resetProgMode]

/-- mc.py `view_file` (lines 358-384): the `try` body calls
`def_prog_mode`, `endwin`, runs the viewer, then `reset_prog_mode`; the
single `except Exception` branch writes to the status bar and never calls
`reset_prog_mode`. -/
def view_file_trace : LaunchOutcome → List TermAction
  | .exited _ =>
      [TermAction.defProgMode, TermAction.endwin, TermAction.resetProgMode]
  | _ => [TermAction.defProgMode, TermAction.endwin]

/-- Claim C8 is violated by the code (code bug): on the launch-failure
exit paths the terminal is released (`endwin`) but never reclaimed —
`_execute_command` skips `reset_prog_mode` exactly on command-not-found
and permission-denied, and `view_file` skips it on every exception —
while the normal path and `_execute_command`'s generic-exception path do
restore it, which shows the restoration was intended on errors too. -/
theorem c8_launch_failure_skips_restore :
    TermAction.resetProgMode ∉ execute_command_trace LaunchOutcome.notFound ∧
    TermAction.resetProgMode
      ∉ execute_command_trace LaunchOutcome.permissionDenied ∧
    TermAction.resetProgMode ∉ view_file_trace LaunchOutcome.notFound ∧
    TermAction.resetProgMode ∈ execute_command_trace (LaunchOutcome.exited 0) ∧
    TermAction.resetProgMode
      ∈ execute_command_trace LaunchOutcome.otherFailure := by
  refine ⟨?_, ?_, ?_, ?_, ?_⟩ <;> decide

end MC
